import Mathlib

/-!
Verification development for `create-pr.py`, the single source file of
`nixpkgs-upkeep`.  The script is shallowly embedded: its pure string helpers
(`make_body`, `extract_template`, `semver_is_upgrade`, the comment bodies) are
translated directly, and the effectful `main` is embedded as a pure function
from the observed world (git diff status, nix evaluation results, search
results, build outcome) to the list of externally observable actions it
performs together with an exit outcome.  Python string idioms (`str.strip`,
`str.split(sep, 1)`, `str.splitlines`, `x or y`) are reproduced at the
character-list level so that everything is executable.
-/

namespace CreatePR

/-- Constant from the source: `TARGET_BRANCH = "master"`. -/
def TARGET_BRANCH : String := "master"

/-- Constant from the source: `BOT_USER = "botnk"`. -/
def BOT_USER : String := "botnk"

/-- Constant from the source: `BOT_EMAIL = "github-botnk@korz.dev"`. -/
def BOT_EMAIL : String := "github-botnk@korz.dev"

/-- Constant from the source: `TEMPLATE_MARKER = "<!-- BEGIN_TEMPLATE -->"`. -/
def TEMPLATE_MARKER : String := "<!-- BEGIN_TEMPLATE -->"

/-- ASCII whitespace recognized by Python `str.strip()` (Python additionally
strips rare Unicode space characters, which never occur in the strings this
script manipulates). -/
def isPySpace (c : Char) : Bool :=
  c == ' ' || c == '\t' || c == '\n' || c == '\r' || c == Char.ofNat 11 || c == Char.ofNat 12

/-- Remove trailing `isPySpace` characters. -/
def rstripCL (l : List Char) : List Char := (l.reverse.dropWhile isPySpace).reverse

/-- Remove leading and trailing `isPySpace` characters, as Python `str.strip()`. -/
def stripCL (l : List Char) : List Char := rstripCL (l.dropWhile isPySpace)

/-- Python `s.strip()`. -/
def pyStrip (s : String) : String := String.mk (stripCL s.data)

/-- `listStartsWith p s` decides whether `p` begins the list `s`. -/
def listStartsWith : List Char → List Char → Bool
  | [], _ => true
  | _ :: _, [] => false
  | p :: ps, c :: cs => p == c && listStartsWith ps cs

/-- Python `s.startswith(p)`. -/
def pyStartswith (p s : String) : Bool := listStartsWith p.data s.data

/-- Split at the first occurrence of `sep`, as Python `s.split(sep, maxsplit=1)`
when it finds a separator: returns the part before the first occurrence and
everything after it, or `none` when `sep` does not occur. -/
def splitFirst (sep : List Char) : List Char → Option (List Char × List Char)
  | [] => none
  | c :: cs =>
    if listStartsWith sep (c :: cs) then some ([], (c :: cs).drop sep.length)
    else
      match splitFirst sep cs with
      | some (p, q) => some (c :: p, q)
      | none => none

/-- Source `make_body`: `body.strip() + "\n\n" + TEMPLATE_MARKER + "\n\n" + template.strip()`. -/
def make_body (body template : String) : String :=
  pyStrip body ++ "\n\n" ++ TEMPLATE_MARKER ++ "\n\n" ++ pyStrip template

/-- Source `extract_template`: split on the marker with `maxsplit=1` and return
the second part when the marker occurs, else `None`. -/
def extract_template (body : String) : Option String :=
  match splitFirst TEMPLATE_MARKER.data body.data with
  | some (_, after) => some (String.mk after)
  | none => none

/-- Whether the template marker occurs in `s` (`extract_template s` succeeds). -/
def containsMarker (s : String) : Bool := (splitFirst TEMPLATE_MARKER.data s.data).isSome

/-- Python `x or y` for `x : Optional[str]`: `None` and the empty string are
falsy, everything else is returned unchanged. -/
def pyOrStr (x : Option String) (y : String) : String :=
  match x with
  | some s => if s == "" then y else s
  | none => y

/-- The body-rewrite expression of the transplant path (source line 181):
`make_body(body, extract_template(pr.body) or pr_template)`. -/
def rewrittenBody (summary curBody dflt : String) : String :=
  make_body summary (pyOrStr (extract_template curBody) dflt)

/-- Python `str.splitlines` restricted to `\n`, `\r\n` and `\r` terminators
(Python also splits on rare control/Unicode separators that do not occur in
build logs handled here).  A trailing terminator does not produce a final
empty line. -/
def splitlinesCL : List Char → List Char → List (List Char)
  | acc, [] => if acc.isEmpty then [] else [acc.reverse]
  | acc, '\r' :: '\n' :: rest => acc.reverse :: splitlinesCL [] rest
  | acc, '\n' :: rest => acc.reverse :: splitlinesCL [] rest
  | acc, '\r' :: rest => acc.reverse :: splitlinesCL [] rest
  | acc, c :: rest => splitlinesCL (c :: acc) rest

/-- Python `s.splitlines()`. -/
def pySplitlines (s : String) : List String := (splitlinesCL [] s.data).map String.mk

/-- Python `"\n".join(log.splitlines()[-n:])` (for `len < n`, `[-n:]` is the
whole list, matched here by truncated subtraction). -/
def pyJoinLastLines (n : Nat) (log : String) : String :=
  String.intercalate "\n" ((pySplitlines log).drop ((pySplitlines log).length - n))

/-! ## Semantic versions

The script delegates version comparison to the python `semver` library
(`semver.compare(new, old) == 1`).  The library parses both arguments against
the strict semver grammar (raising on malformed input, which the script does
not catch) and compares: major/minor/patch numerically, then a version without
prerelease outranks one with, then prerelease identifiers pairwise (numeric
identifiers numerically and below alphanumeric ones, alphanumeric ones in
ASCII order), with the shorter identifier list lower on a tie.  The library's
final tie-break compares the lengths of the raw prerelease strings; on inputs
accepted by the grammar (identifiers non-empty, numeric ones without leading
zeros) that coincides with comparing identifier-list lengths, which is what
`natCmp` does. -/

/-- A prerelease identifier: numeric, or alphanumeric (kept as its characters). -/
inductive Ident where
  | num (n : Nat)
  | alphanum (s : List Char)
deriving DecidableEq

/-- A parsed semantic version; the build metadata is validated by parsing but
discarded, since comparison ignores it. -/
structure SemVer where
  major : Nat
  minor : Nat
  patch : Nat
  pre : List Ident
deriving DecidableEq

/-- Python `cmp` on naturals: `-1`, `0` or `1`. -/
def pyCmp (a b : Nat) : Int := if a < b then -1 else if b < a then 1 else 0

/-- Python `cmp` on strings (code-point lexicographic, shorter prefix lower). -/
def cmpChars : List Char → List Char → Int
  | [], [] => 0
  | [], _ :: _ => -1
  | _ :: _, [] => 1
  | c :: cs, d :: ds => if c < d then -1 else if d < c then 1 else cmpChars cs ds

/-- The library's `cmp_prerelease_tag`: two ints compare numerically, an int is
below a string, two strings compare as strings. -/
def cmpIdent : Ident → Ident → Int
  | .num m, .num n => pyCmp m n
  | .num _, .alphanum _ => -1
  | .alphanum _, .num _ => 1
  | .alphanum s, .alphanum t => cmpChars s t

/-- The library's `_nat_cmp`: compare zipped identifiers, first difference
wins, otherwise the shorter identifier list is lower. -/
def natCmp : List Ident → List Ident → Int
  | x :: xs, y :: ys => if cmpIdent x y = 0 then natCmp xs ys else cmpIdent x y
  | xs, ys => pyCmp xs.length ys.length

/-- The library's prerelease step: `not rc1 and not rc2 → 0`, `not rc1 → 1`,
`not rc2 → -1`, else `_nat_cmp`. -/
def preCmp : List Ident → List Ident → Int
  | [], [] => 0
  | [], _ :: _ => 1
  | _ :: _, [] => -1
  | p, q => natCmp p q

/-- The library's `compare`: major/minor/patch tuples first, then the
prerelease rules. -/
def SemVer.compare (x y : SemVer) : Int :=
  if pyCmp x.major y.major ≠ 0 then pyCmp x.major y.major
  else if pyCmp x.minor y.minor ≠ 0 then pyCmp x.minor y.minor
  else if pyCmp x.patch y.patch ≠ 0 then pyCmp x.patch y.patch
  else preCmp x.pre y.pre

/-- Characters allowed in prerelease/build identifiers: `[0-9A-Za-z-]`. -/
def identChar (c : Char) : Bool := c.isDigit || c.isAlpha || c == '-'

/-- The semver grammar's numeric token `0|[1-9][0-9]*`: non-empty digits with
no leading zero. -/
def validNumeric (ds : List Char) : Bool :=
  !ds.isEmpty && (ds == ['0'] || ds.head? != some '0')

/-- Decimal value of a digit list. -/
def digitsToNat (ds : List Char) : Nat := ds.foldl (fun n c => 10 * n + (c.toNat - '0'.toNat)) 0

/-- Split on every occurrence of a character, as Python `s.split(sep)`
(the empty string yields one empty part). -/
def splitOnChar (sep : Char) : List Char → List (List Char)
  | [] => [[]]
  | c :: cs =>
    if c == sep then [] :: splitOnChar sep cs
    else
      match splitOnChar sep cs with
      | [] => [[c]]
      | p :: ps => (c :: p) :: ps

/-- Split at the first occurrence of a character, keeping the remainder when
the character occurs. -/
def splitAtFirstChar (sep : Char) : List Char → List Char × Option (List Char)
  | [] => ([], none)
  | c :: cs =>
    if c == sep then ([], some cs)
    else
      let r := splitAtFirstChar sep cs
      (c :: r.1, r.2)

/-- Parse one prerelease identifier per the semver grammar: non-empty; all
digits means a numeric identifier without leading zeros; otherwise all
characters must be `[0-9A-Za-z-]`. -/
def parseIdent (part : List Char) : Option Ident :=
  if part.isEmpty then none
  else if part.all Char.isDigit then
    if validNumeric part then some (.num (digitsToNat part)) else none
  else if part.all identChar then some (.alphanum part)
  else none

/-- Parse a dot-separated list of prerelease identifiers. -/
def parseIdents : List (List Char) → Option (List Ident)
  | [] => some []
  | p :: ps =>
    match parseIdent p, parseIdents ps with
    | some i, some is => some (i :: is)
    | _, _ => none

/-- Build metadata: dot-separated non-empty `[0-9A-Za-z-]` groups (leading
zeros allowed). -/
def buildOk (b : List Char) : Bool :=
  (splitOnChar '.' b).all fun part => !part.isEmpty && part.all identChar

/-- Parse a semantic version string against the library's anchored grammar
`major.minor.patch[-prerelease][+build]`; any deviation yields `none`
(which the script turns into a fatal error). -/
def parseSemverChars (cs : List Char) : Option SemVer :=
  let m1 := cs.span Char.isDigit
  if validNumeric m1.1 then
    match m1.2 with
    | '.' :: r2 =>
      let m2 := r2.span Char.isDigit
      if validNumeric m2.1 then
        match m2.2 with
        | '.' :: r4 =>
          let m3 := r4.span Char.isDigit
          if validNumeric m3.1 then
            let base : SemVer := ⟨digitsToNat m1.1, digitsToNat m2.1, digitsToNat m3.1, []⟩
            match m3.2 with
            | [] => some base
            | '+' :: b => if buildOk b then some base else none
            | '-' :: r =>
              let pb := splitAtFirstChar '+' r
              match parseIdents (splitOnChar '.' pb.1) with
              | some idents =>
                match pb.2 with
                | none => some { base with pre := idents }
                | some b => if buildOk b then some { base with pre := idents } else none
              | none => none
            | _ => none
          else none
        | _ => none
      else none
    | _ => none
  else none

/-- Parse a semantic version string. -/
def parseSemver (s : String) : Option SemVer := parseSemverChars s.data

/-- Source `semver_is_upgrade(old, new) = (semver.compare(new, old) == 1)`;
`none` models the uncaught `ValueError` the library raises on malformed
input. -/
def semver_is_upgrade (old new : String) : Option Bool :=
  match parseSemver new, parseSemver old with
  | some vnew, some vold => some (SemVer.compare vnew vold == 1)
  | _, _ => none

/-! ### The semantic-version strict order, stated independently of the
library's comparison loop, following the precedence rules of the semver
specification. -/

/-- ASCII-lexicographic strict order on character lists (a strict prefix is
lower). -/
def lexLtChars : List Char → List Char → Bool
  | _, [] => false
  | [], _ :: _ => true
  | c :: cs, d :: ds => decide (c < d) || (c == d && lexLtChars cs ds)

/-- Strict order on prerelease identifiers: numeric below alphanumeric,
numeric numerically, alphanumeric in ASCII order. -/
def Ident.ltB : Ident → Ident → Bool
  | .num m, .num n => decide (m < n)
  | .num _, .alphanum _ => true
  | .alphanum _, .num _ => false
  | .alphanum s, .alphanum t => lexLtChars s t

/-- Strict order on identifier lists: pointwise, a strict prefix is lower. -/
def preListLt : List Ident → List Ident → Bool
  | _, [] => false
  | [], _ :: _ => true
  | x :: xs, y :: ys => Ident.ltB x y || (x == y && preListLt xs ys)

/-- Prerelease precedence: a version with a prerelease is below the same
version without one; two prereleases compare by `preListLt`. -/
def prePartLt (p q : List Ident) : Bool :=
  (!p.isEmpty && q.isEmpty) || (!p.isEmpty && !q.isEmpty && preListLt p q)

/-- Strict semantic-version order per the semver specification. -/
def SemVer.ltB (a b : SemVer) : Bool :=
  decide (a.major < b.major) ||
    (a.major == b.major &&
      (decide (a.minor < b.minor) ||
        (a.minor == b.minor &&
          (decide (a.patch < b.patch) ||
            (a.patch == b.patch && prePartLt a.pre b.pre)))))

/-- Propositional form of the strict semantic-version order. -/
def SemVer.Lt (a b : SemVer) : Prop := SemVer.ltB a b = true

/-! ## The embedded `main`

`main` is embedded as a pure function of an environment (the `os.environ`
values read at module load) and a `World` that fixes the outcome of every
observation the run makes (git diff status, `nix-instantiate` evaluations,
the two GitHub searches, the `pulls.get`/`pulls.create` responses, the PR
template file, and the `nix-build` outcome).  External calls are modeled as
succeeding; the run's observable behavior is the ordered list of actions it
performs (stdout lines, `git` invocations with their literal argument lists,
and the GitHub REST/GraphQL mutations) plus an exit outcome. -/

/-- The environment values read at module load (lines 19-22); a missing
required value raises `KeyError` before `main` runs. -/
structure Env where
  package : String
  preVersion : String
  ghToken : String
  workflowUrl : String
deriving DecidableEq

/-- An item of a GitHub search result, with the fields the script reads. -/
structure PRItem where
  number : Nat
  title : String
  htmlUrl : String
deriving DecidableEq

/-- A GitHub search response: `total_count` and `items` are separate fields of
the API response, exactly as the script consumes them. -/
structure SearchResult where
  totalCount : Nat
  items : List PRItem
deriving DecidableEq

/-- A full pull-request object as returned by `pulls.get`/`pulls.create`, with
the fields the script reads. -/
structure FullPR where
  number : Nat
  nodeId : String
  headRef : String
  body : String
  htmlUrl : String
deriving DecidableEq

/-- Everything the run observes from outside, fixed up front. -/
structure World where
  /-- Result of `git diff-index --quiet HEAD --` (line 85). -/
  diffIndexClean : Bool
  /-- `nix_instantiate_eval (lib.getVersion PACKAGE)` on the updated tree (line 89). -/
  newVersion : String
  /-- `nix_instantiate_eval (PACKAGE.meta.changelog)` (line 90). -/
  changelog : String
  /-- `search_existing_prs` response (any author, line 104). -/
  existingPRs : SearchResult
  /-- `search_base_prs` response (bot-authored, line 150). -/
  basePRs : SearchResult
  /-- `pulls.get` response by number (line 157). -/
  getPR : Nat → FullPR
  /-- `nix_instantiate_eval (lib.getVersion PACKAGE)` at the tip of the
  existing PR branch, after switching to it (line 165). -/
  baseVersion : String
  /-- Contents of `.github/PULL_REQUEST_TEMPLATE.md` (line 137). -/
  prTemplate : String
  /-- `pulls.create` response (line 201). -/
  createdPR : FullPR
  /-- First component of `nix_build PACKAGE` (line 206). -/
  buildSucceeded : Bool
  /-- Second component of `nix_build PACKAGE` (line 206). -/
  buildLog : String

/-- An externally observable action of one run. -/
inductive Action where
  /-- A `print` to stdout. -/
  | printLine (s : String)
  /-- A `git` invocation with its literal argument list. -/
  | git (args : List String)
  /-- `pulls.update` (title and body). -/
  | prUpdate (number : Nat) (title body : String)
  /-- `pulls.create`. -/
  | prCreate (head base title body : String) (maintainerCanModify draft : Bool)
  /-- `issues.create_comment`. -/
  | createComment (number : Nat) (body : String)
  /-- The `markPullRequestReadyForReview` GraphQL mutation. -/
  | markReady (nodeId : String)
deriving DecidableEq

/-- How one run ends. -/
inductive Outcome where
  /-- Early `return` at line 87 (clean tree). -/
  | earlyNoDiff
  /-- Early `return` at line 97 (not an upgrade). -/
  | earlyNotUpgrade
  /-- Early `return` at line 110 (duplicate PR found). -/
  | earlyDuplicate
  /-- `main` ran to the end. -/
  | completed
  /-- Uncaught `ValueError` from `semver.compare` (malformed version). -/
  | fatalMalformedVersion
  /-- Uncaught `KeyError` reading `os.environ` at module load. -/
  | fatalMissingEnv
deriving DecidableEq

/-- The trace of actions a run performs, in order, and its outcome. -/
structure RunResult where
  trace : List Action
  outcome : Outcome
deriving DecidableEq

/-- The `textwrap.dedent`-ed PR body f-string of lines 138-147 (dedent strips
the 8-column margin and blanks the trailing whitespace-only line). -/
def prBodyText (package preVersion newVersion changelog workflowUrl : String) : String :=
  "\nUpgrades " ++ package ++ " from " ++ preVersion ++ " to " ++ newVersion ++
    "\n\nThis PR was automatically generated by [nixpkgs-upkeep](https://github.com/niklaskorz/nixpkgs-upkeep).\n\n- Changelog: " ++
    changelog ++ "\n- [CI workflow](" ++ workflowUrl ++ ") that created this PR.\n\ncc @niklaskorz\n"

/-- The success-comment body of lines 209-216. -/
def successCommentBody (package log : String) : String :=
  "nix-build was successful! Marking this PR as ready for review.\n\n<details>\n<summary>Complete build log</summary>\n\n```\n> nix-build -A " ++
    package ++ "\n" ++ log ++ "\n```\n</details>\n"

/-- The failure-comment body of lines 237-250, with the abbreviated excerpt
`"\n".join(build_log.splitlines()[-15:])`. -/
def failureCommentBody (package log : String) : String :=
  "nix-build failed. Leaving this PR as a draft for now. Push commits to this branch and mark as \"ready for review\" once the build issues have been resolved.\n\nAbbreviated log:\n```\n> nix-build -A " ++
    package ++ "\n...\n" ++ pyJoinLastLines 15 log ++
    "\n```\n\n<details>\n<summary>Complete build log</summary>\n\n```\n> nix-build -A " ++
    package ++ "\n" ++ log ++ "\n```\n</details>\n"

/-- The Readiness Gate (lines 205-257): print, run `nix-build`, then either
comment with the full log and mark ready, or comment with abbreviated plus
full log and leave the draft state alone. -/
def readinessTrace (env : Env) (w : World) (number : Nat) (nodeId : String) : List Action :=
  Action.printLine "Running nix-build..." ::
    (if w.buildSucceeded then
      [Action.createComment number (successCommentBody env.package w.buildLog),
       Action.markReady nodeId]
    else
      [Action.createComment number (failureCommentBody env.package w.buildLog)])

/-- The actions of lines 99-133, common to both reconciliation paths: the
status print, git identity configuration, unshallowing fetch, fork remote,
branch creation and the local upgrade commit. -/
def setupTrace (env : Env) (w : World) : List Action :=
  [Action.printLine ("Updating " ++ env.package ++ " from " ++ env.preVersion ++ " to " ++ w.newVersion),
   Action.git ["config", "--global", "user.email", BOT_EMAIL],
   Action.git ["config", "--global", "user.name", BOT_USER],
   Action.git ["fetch", "--refetch", "--filter=tree:0", "origin", TARGET_BRANCH],
   Action.git ["remote", "add", "fork",
     "https://" ++ BOT_USER ++ ":" ++ env.ghToken ++ "@github.com/" ++ BOT_USER ++ "/nixpkgs.git"],
   Action.git ["switch", TARGET_BRANCH],
   Action.git ["switch", "-c", env.package ++ "-" ++ w.newVersion],
   Action.git ["add", "."],
   Action.git ["commit", "-m",
     env.package ++ ": " ++ env.preVersion ++ " -> " ++ w.newVersion ++ "\n\nChangelog: " ++ w.changelog]]

/-- The transplant path (lines 155-185): fetch and switch to the existing PR
branch, cherry-pick the new commit preferring incoming content, rewrite its
message with the re-derived base version, push, and update title and body of
the existing PR. -/
def transplantTrace (env : Env) (w : World) (basePR : PRItem) : List Action :=
  setupTrace env w ++
    [Action.printLine "Updating existing PR branch...",
     Action.git ["fetch", "--filter=tree:0", "fork", (w.getPR basePR.number).headRef],
     Action.git ["switch", (w.getPR basePR.number).headRef],
     Action.git ["cherry-pick", "--strategy-option=theirs", env.package ++ "-" ++ w.newVersion],
     Action.git ["commit", "--amend", "-m",
       env.package ++ ": " ++ w.baseVersion ++ " -> " ++ w.newVersion ++ "\n\nChangelog: " ++ w.changelog],
     Action.git ["push", "--set-upstream", "fork", (w.getPR basePR.number).headRef],
     Action.printLine "Updating existing PR on NixOS/nixpkgs...",
     Action.prUpdate basePR.number
       (env.package ++ ": " ++ env.preVersion ++ " -> " ++ w.newVersion)
       (rewrittenBody
         (prBodyText env.package env.preVersion w.newVersion w.changelog env.workflowUrl)
         (w.getPR basePR.number).body w.prTemplate),
     Action.printLine ("Updated PR: " ++ (w.getPR basePR.number).htmlUrl)]

/-- The fresh path (lines 186-203): push the new branch to the fork and open a
draft PR. -/
def freshTrace (env : Env) (w : World) : List Action :=
  setupTrace env w ++
    [Action.printLine "Pushing new PR branch...",
     Action.git ["push", "--set-upstream", "fork", env.package ++ "-" ++ w.newVersion],
     Action.printLine "Creating a new draft PR on NixOS/nixpkgs...",
     Action.prCreate (BOT_USER ++ ":" ++ env.package ++ "-" ++ w.newVersion) TARGET_BRANCH
       (env.package ++ ": " ++ env.preVersion ++ " -> " ++ w.newVersion)
       (make_body (prBodyText env.package env.preVersion w.newVersion w.changelog env.workflowUrl)
         w.prTemplate)
       true true,
     Action.printLine ("Created PR: " ++ w.createdPR.htmlUrl)]

/-- The Branch Reconciler decision (lines 150-154): the first bot-authored
open PR whose title starts with `"{PACKAGE}: {PRE_VERSION} -> "`, if any. -/
def findBasePR (env : Env) (w : World) : Option PRItem :=
  w.basePRs.items.find? fun pr =>
    pyStartswith (env.package ++ ": " ++ env.preVersion ++ " -> ") pr.title

/-- Lines 135-257: compose the PR body, reconcile against an existing base PR
or create a fresh one, then run the Readiness Gate.  In the transplant path
the subsequent comment/ready calls use the `pulls.get` response's `number` and
`node_id`; in the fresh path they use the `pulls.create` response's. -/
def reconcileAndReadiness (env : Env) (w : World) : RunResult :=
  match findBasePR env w with
  | some basePR =>
    ⟨transplantTrace env w basePR ++
       readinessTrace env w (w.getPR basePR.number).number (w.getPR basePR.number).nodeId,
     Outcome.completed⟩
  | none =>
    ⟨freshTrace env w ++ readinessTrace env w w.createdPR.number w.createdPR.nodeId,
     Outcome.completed⟩

/-- The Duplicate Finder (lines 103-110): abort, reporting every match, when
the search's `total_count` is positive. -/
def afterUpgradeGate (env : Env) (w : World) : RunResult :=
  if w.existingPRs.totalCount > 0 then
    ⟨[Action.printLine ("Updating " ++ env.package ++ " from " ++ env.preVersion ++ " to " ++ w.newVersion),
      Action.printLine "There seems to be an existing PR for this change already:"] ++
       w.existingPRs.items.map (fun item => Action.printLine item.htmlUrl),
     Outcome.earlyDuplicate⟩
  else reconcileAndReadiness env w

/-- The Version Gate (lines 89-97): read the new version, then return early
unless it is a strict semver upgrade; a malformed version is fatal. -/
def afterDiffGate (env : Env) (w : World) : RunResult :=
  match semver_is_upgrade env.preVersion w.newVersion with
  | none => ⟨[], Outcome.fatalMalformedVersion⟩
  | some false =>
    ⟨[Action.printLine (w.newVersion ++ " does not appear to be an upgrade from " ++ env.preVersion)],
     Outcome.earlyNotUpgrade⟩
  | some true => afterUpgradeGate env w

/-- The embedded `main` (lines 83-257). -/
def main (env : Env) (w : World) : RunResult :=
  if w.diffIndexClean then
    ⟨[Action.printLine "No diff after running updater."], Outcome.earlyNoDiff⟩
  else afterDiffGate env w

/-- Module-load environment reading (lines 19-22): the required keys raise
`KeyError` when absent, `GITHUB_WORKFLOW_URL` defaults to the empty string. -/
def loadEnv (environ : List (String × String)) : Option Env :=
  match environ.lookup "PACKAGE", environ.lookup "PRE_VERSION", environ.lookup "GH_TOKEN" with
  | some p, some pre, some tok =>
    some ⟨p, pre, tok, (environ.lookup "GITHUB_WORKFLOW_URL").getD ""⟩
  | _, _, _ => none

/-- A whole script invocation: environment reading at module load, then `main`. -/
def runScript (environ : List (String × String)) (w : World) : RunResult :=
  match loadEnv environ with
  | none => ⟨[], Outcome.fatalMissingEnv⟩
  | some env => main env w

/-! ### Observation helpers over traces -/

/-- Mutating, externally visible actions: pushes to the fork, PR
create/update, comments, and the readiness transition.  Prints, local git
operations (config/fetch/remote/switch/add/commit/cherry-pick/amend) and
read-only API calls are not external mutations. -/
def isExternalMutation : Action → Bool
  | .printLine _ => false
  | .git args => args.head? == some "push"
  | .prUpdate _ _ _ => true
  | .prCreate _ _ _ _ _ _ => true
  | .createComment _ _ => true
  | .markReady _ => true

/-- Whether an action is a `pulls.create` call. -/
def isPrCreate : Action → Bool
  | .prCreate _ _ _ _ _ _ => true
  | _ => false

/-- Whether an action is a `pulls.update` call. -/
def isPrUpdate : Action → Bool
  | .prUpdate _ _ _ => true
  | _ => false

/-- Whether an action is an `issues.create_comment` call. -/
def isCreateComment : Action → Bool
  | .createComment _ _ => true
  | _ => false

/-- Whether an action is the ready-for-review mutation. -/
def isMarkReady : Action → Bool
  | .markReady _ => true
  | _ => false

/-- Whether an action is a `git push`. -/
def isGitPush : Action → Bool
  | .git args => args.head? == some "push"
  | _ => false

/-- Whether an action is a `git cherry-pick`. -/
def isCherryPick : Action → Bool
  | .git args => args.head? == some "cherry-pick"
  | _ => false

/-- Whether an action is a `git commit --amend`. -/
def isCommitAmend : Action → Bool
  | .git args => args.take 2 == ["commit", "--amend"]
  | _ => false

/-- Modelled from the spec: the hosting service's draft-flag evolution, which
is not part of the script.  A proposal is created in the state given by its
`draft` argument; title/body updates and comments leave the flag alone; the
`markPullRequestReadyForReview` mutation sets it to false and is an idempotent
no-op on an already-ready proposal. -/
def draftAfter (init : Bool) (tr : List Action) : Bool :=
  tr.foldl (fun d a => match a with | .markReady _ => false | _ => d) init

/-! ## Unfolding lemmas for the gate cascade -/

theorem main_of_clean (env : Env) (w : World) (h : w.diffIndexClean = true) :
    main env w = ⟨[Action.printLine "No diff after running updater."], Outcome.earlyNoDiff⟩ := by
  unfold main
  rw [h]
  simp

theorem main_of_dirty (env : Env) (w : World) (h : w.diffIndexClean = false) :
    main env w = afterDiffGate env w := by
  unfold main
  rw [h]
  simp

theorem afterDiffGate_of_upgrade (env : Env) (w : World)
    (h : semver_is_upgrade env.preVersion w.newVersion = some true) :
    afterDiffGate env w = afterUpgradeGate env w := by
  unfold afterDiffGate
  rw [h]

theorem afterDiffGate_of_not_upgrade (env : Env) (w : World)
    (h : semver_is_upgrade env.preVersion w.newVersion = some false) :
    afterDiffGate env w =
      ⟨[Action.printLine (w.newVersion ++ " does not appear to be an upgrade from " ++ env.preVersion)],
       Outcome.earlyNotUpgrade⟩ := by
  unfold afterDiffGate
  rw [h]

theorem afterDiffGate_of_malformed (env : Env) (w : World)
    (h : semver_is_upgrade env.preVersion w.newVersion = none) :
    afterDiffGate env w = ⟨[], Outcome.fatalMalformedVersion⟩ := by
  unfold afterDiffGate
  rw [h]

theorem afterUpgradeGate_of_no_dup (env : Env) (w : World)
    (h : w.existingPRs.totalCount = 0) :
    afterUpgradeGate env w = reconcileAndReadiness env w := by
  unfold afterUpgradeGate
  rw [h]
  simp

theorem afterUpgradeGate_of_dup (env : Env) (w : World)
    (h : 0 < w.existingPRs.totalCount) :
    afterUpgradeGate env w =
      ⟨[Action.printLine ("Updating " ++ env.package ++ " from " ++ env.preVersion ++ " to " ++ w.newVersion),
        Action.printLine "There seems to be an existing PR for this change already:"] ++
         w.existingPRs.items.map (fun item => Action.printLine item.htmlUrl),
       Outcome.earlyDuplicate⟩ := by
  unfold afterUpgradeGate
  rw [if_pos h]

theorem reconcile_of_base (env : Env) (w : World) (basePR : PRItem)
    (h : findBasePR env w = some basePR) :
    reconcileAndReadiness env w =
      ⟨transplantTrace env w basePR ++
         readinessTrace env w (w.getPR basePR.number).number (w.getPR basePR.number).nodeId,
       Outcome.completed⟩ := by
  unfold reconcileAndReadiness
  rw [h]

theorem reconcile_of_no_base (env : Env) (w : World)
    (h : findBasePR env w = none) :
    reconcileAndReadiness env w =
      ⟨freshTrace env w ++ readinessTrace env w w.createdPR.number w.createdPR.nodeId,
       Outcome.completed⟩ := by
  unfold reconcileAndReadiness
  rw [h]

theorem runScript_env_none (environ : List (String × String)) (w : World)
    (h : loadEnv environ = none) : runScript environ w = ⟨[], Outcome.fatalMissingEnv⟩ := by
  unfold runScript
  rw [h]

theorem runScript_env_some (environ : List (String × String)) (w : World) (env : Env)
    (h : loadEnv environ = some env) : runScript environ w = main env w := by
  unfold runScript
  rw [h]

theorem filter_extMut_printLines (l : List PRItem) :
    (l.map fun item => Action.printLine item.htmlUrl).filter isExternalMutation = [] := by
  induction l with
  | nil => rfl
  | cons a t ih => simp [isExternalMutation, ih]

/-! ## Claim C10 -/

/-- C10: if the git working tree is clean (diff-index clean) when the run
starts, `main` returns immediately with success (the early no-diff return),
and its behavior is independent of everything else the world would have
provided — the new version is never read, the Version Gate never runs, and no
search or mutating action is performed. -/
theorem C10_clean_tree_short_circuit (env : Env) (w : World) (h : w.diffIndexClean = true) :
    main env w = ⟨[Action.printLine "No diff after running updater."], Outcome.earlyNoDiff⟩ ∧
    (∀ w' : World, w'.diffIndexClean = true → main env w = main env w') := by
  refine ⟨main_of_clean env w h, fun w' h' => ?_⟩
  rw [main_of_clean env w h, main_of_clean env w' h']

/-- Shared witness fixture: a concrete environment. -/
def envW : Env := ⟨"pkg", "1.0.0", "tok", "wf"⟩

/-- Shared witness fixture: a concrete full PR. -/
def fullPRW : FullPR := ⟨7, "node7", "pkg-1.0.5", "old body", "urlF"⟩

/-- Shared witness fixture: a world whose working tree is clean. -/
def worldClean : World :=
  ⟨true, "1.1.0", "cl", ⟨0, []⟩, ⟨0, []⟩, fun _ => fullPRW, "1.0.5", "tmpl", fullPRW, true, "log"⟩

/-- Shared witness fixture: another clean world, differing in every
observation `main` would make after the diff check. -/
def worldClean2 : World :=
  ⟨true, "not-a-version", "cl2", ⟨5, []⟩, ⟨0, []⟩, fun _ => fullPRW, "x", "tmpl2", fullPRW, false, "log2"⟩

theorem C10_clean_tree_short_circuit_witness :
    main envW worldClean = ⟨[Action.printLine "No diff after running updater."], Outcome.earlyNoDiff⟩ ∧
    main envW worldClean = main envW worldClean2 :=
  ⟨(C10_clean_tree_short_circuit envW worldClean rfl).1,
   (C10_clean_tree_short_circuit envW worldClean rfl).2 worldClean2 rfl⟩

/-! ## Claim C9 -/

/-- C9: a run whose trace contains any mutating, externally visible action
(git push, proposal create/update, comment, readiness transition) necessarily
loaded its required environment values and passed the diff check, the Version
Gate, and the Duplicate Finder; missing required environment values or a
malformed version string abort the run with an empty trace, before any
external mutation. -/
theorem C9_gate_ordering :
    (∀ (environ : List (String × String)) (w : World),
        (runScript environ w).trace.filter isExternalMutation ≠ [] →
        ∃ env, loadEnv environ = some env ∧ w.diffIndexClean = false ∧
          semver_is_upgrade env.preVersion w.newVersion = some true ∧
          w.existingPRs.totalCount = 0) ∧
    (∀ (environ : List (String × String)) (w : World),
        loadEnv environ = none → runScript environ w = ⟨[], Outcome.fatalMissingEnv⟩) ∧
    (∀ (env : Env) (w : World), w.diffIndexClean = false →
        semver_is_upgrade env.preVersion w.newVersion = none →
        main env w = ⟨[], Outcome.fatalMalformedVersion⟩) := by
  refine ⟨?_, ?_, ?_⟩
  · intro environ w hne
    cases hload : loadEnv environ with
    | none => rw [runScript_env_none environ w hload] at hne; simp at hne
    | some env =>
      rw [runScript_env_some environ w env hload] at hne
      cases hd : w.diffIndexClean with
      | true => rw [main_of_clean env w hd] at hne; simp [isExternalMutation] at hne
      | false =>
        rw [main_of_dirty env w hd] at hne
        cases hu : semver_is_upgrade env.preVersion w.newVersion with
        | none => rw [afterDiffGate_of_malformed env w hu] at hne; simp at hne
        | some b =>
          cases b with
          | false =>
            rw [afterDiffGate_of_not_upgrade env w hu] at hne
            simp [isExternalMutation] at hne
          | true =>
            by_cases h0 : w.existingPRs.totalCount = 0
            · exact ⟨env, rfl, rfl, hu, h0⟩
            · rw [afterDiffGate_of_upgrade env w hu,
                afterUpgradeGate_of_dup env w (Nat.pos_of_ne_zero h0)] at hne
              simp [isExternalMutation, filter_extMut_printLines] at hne
  · exact runScript_env_none
  · intro env w hd hu
    rw [main_of_dirty env w hd, afterDiffGate_of_malformed env w hu]

/-- Shared witness fixture: a world that is dirty but carries a malformed new
version. -/
def worldMalformed : World :=
  ⟨false, "not-a-version", "cl", ⟨0, []⟩, ⟨0, []⟩, fun _ => fullPRW, "x", "tmpl", fullPRW, true, "log"⟩

theorem C9_gate_ordering_witness :
    runScript [] worldClean = ⟨[], Outcome.fatalMissingEnv⟩ ∧
    main envW worldMalformed = ⟨[], Outcome.fatalMalformedVersion⟩ :=
  ⟨C9_gate_ordering.2.1 [] worldClean rfl,
   C9_gate_ordering.2.2 envW worldMalformed rfl (by decide)⟩

/-! ## Claim C8 -/

/-- What the Duplicate Finder guarantees once the diff check and Version Gate
have passed: the run completes (reaches the Reconciler and Readiness Gate) iff
the search result set is empty; a non-empty result set makes the run return
successfully after printing every match's URL, with no mutating action. -/
def duplicateFinderSpec (env : Env) (w : World) : Prop :=
  ((main env w).outcome = Outcome.completed ↔ w.existingPRs.items = []) ∧
  (w.existingPRs.items ≠ [] →
    main env w =
      ⟨[Action.printLine ("Updating " ++ env.package ++ " from " ++ env.preVersion ++ " to " ++ w.newVersion),
        Action.printLine "There seems to be an existing PR for this change already:"] ++
         w.existingPRs.items.map (fun item => Action.printLine item.htmlUrl),
       Outcome.earlyDuplicate⟩ ∧
    (main env w).trace.filter isExternalMutation = [])

/-- C8: assuming the search response is consistent (`total_count` equals the
number of returned items, as when the service returns exactly the open
proposals whose titles contain package and new version), the run proceeds past
the Duplicate Finder iff the result set is empty; otherwise every match is
reported and the run returns successfully without any external mutation. -/
theorem C8_duplicate_finder (env : Env) (w : World)
    (hd : w.diffIndexClean = false)
    (hu : semver_is_upgrade env.preVersion w.newVersion = some true)
    (hc : w.existingPRs.totalCount = w.existingPRs.items.length) :
    duplicateFinderSpec env w := by
  rw [duplicateFinderSpec, main_of_dirty env w hd, afterDiffGate_of_upgrade env w hu]
  by_cases hi : w.existingPRs.items = []
  · have h0 : w.existingPRs.totalCount = 0 := by rw [hc, hi]; rfl
    rw [afterUpgradeGate_of_no_dup env w h0]
    refine ⟨?_, fun h => absurd hi h⟩
    cases hb : findBasePR env w with
    | some basePR => rw [reconcile_of_base env w basePR hb]; simpa using hi
    | none => rw [reconcile_of_no_base env w hb]; simpa using hi
  · have hpos : 0 < w.existingPRs.totalCount := by
      rw [hc]
      exact List.length_pos.mpr hi
    rw [afterUpgradeGate_of_dup env w hpos]
    refine ⟨by simpa using hi, fun _ => ⟨rfl, ?_⟩⟩
    simp [isExternalMutation, filter_extMut_printLines]

/-- Shared witness fixture: a world in which the duplicate search finds one
open PR. -/
def worldDup : World :=
  ⟨false, "1.1.0", "cl", ⟨1, [⟨3, "pkg 1.1.0 bump", "urlD"⟩]⟩, ⟨0, []⟩, fun _ => fullPRW,
   "1.0.5", "tmpl", fullPRW, true, "log"⟩

theorem C8_duplicate_finder_witness : duplicateFinderSpec envW worldDup :=
  C8_duplicate_finder envW worldDup rfl (by decide) rfl

/-! ## Claims C1 and C4: the Branch Reconciler paths -/

theorem readinessTrace_of_success (env : Env) (w : World) (n : Nat) (i : String)
    (h : w.buildSucceeded = true) :
    readinessTrace env w n i =
      [Action.printLine "Running nix-build...",
       Action.createComment n (successCommentBody env.package w.buildLog),
       Action.markReady i] := by
  unfold readinessTrace
  rw [h]
  rfl

theorem readinessTrace_of_failure (env : Env) (w : World) (n : Nat) (i : String)
    (h : w.buildSucceeded = false) :
    readinessTrace env w n i =
      [Action.printLine "Running nix-build...",
       Action.createComment n (failureCommentBody env.package w.buildLog)] := by
  unfold readinessTrace
  rw [h]
  rfl

/-- What the transplant path guarantees: the run completes having performed no
proposal creation, exactly one proposal update (of the found base proposal's
number, with the title rebuilt from the originally observed previous version
and the body rewritten through `rewrittenBody`), exactly one cherry-pick of
the new commit, exactly one commit-message rewrite using the re-derived base
version, and exactly one push — of the existing head branch. -/
def transplantSpec (env : Env) (w : World) (basePR : PRItem) : Prop :=
  (main env w).outcome = Outcome.completed ∧
  (main env w).trace.filter isPrCreate = [] ∧
  (main env w).trace.filter isPrUpdate =
    [Action.prUpdate basePR.number
      (env.package ++ ": " ++ env.preVersion ++ " -> " ++ w.newVersion)
      (rewrittenBody (prBodyText env.package env.preVersion w.newVersion w.changelog env.workflowUrl)
        (w.getPR basePR.number).body w.prTemplate)] ∧
  (main env w).trace.filter isCherryPick =
    [Action.git ["cherry-pick", "--strategy-option=theirs", env.package ++ "-" ++ w.newVersion]] ∧
  (main env w).trace.filter isCommitAmend =
    [Action.git ["commit", "--amend", "-m",
      env.package ++ ": " ++ w.baseVersion ++ " -> " ++ w.newVersion ++ "\n\nChangelog: " ++ w.changelog]] ∧
  (main env w).trace.filter isGitPush =
    [Action.git ["push", "--set-upstream", "fork", (w.getPR basePR.number).headRef]]

/-- C1: when a bot-authored open proposal titled `"{package}: {previousVersion} -> ..."`
is found, the run mutates that same proposal (one `pulls.update` at its
number, no `pulls.create`), sets its title to
`"{package}: {previousVersion} -> {newVersion}"` with the originally observed
previous version, and advances the proposal's existing head branch by exactly
one commit — one cherry-pick followed by one message rewrite to
`"{package}: {baseVersion} -> {newVersion}\n\nChangelog: {changelogRef}"`,
where the base version is the one re-derived from the head branch's tip — and
one push of that head branch. -/
theorem C1_transplant_path (env : Env) (w : World) (basePR : PRItem)
    (hd : w.diffIndexClean = false)
    (hu : semver_is_upgrade env.preVersion w.newVersion = some true)
    (h0 : w.existingPRs.totalCount = 0)
    (hfind : findBasePR env w = some basePR) :
    transplantSpec env w basePR := by
  have hm : main env w =
      ⟨transplantTrace env w basePR ++
         readinessTrace env w (w.getPR basePR.number).number (w.getPR basePR.number).nodeId,
       Outcome.completed⟩ := by
    rw [main_of_dirty env w hd, afterDiffGate_of_upgrade env w hu,
      afterUpgradeGate_of_no_dup env w h0, reconcile_of_base env w basePR hfind]
  rw [transplantSpec, hm]
  cases hbs : w.buildSucceeded with
  | true =>
    rw [readinessTrace_of_success env w _ _ hbs]
    exact ⟨rfl, rfl, rfl, rfl, rfl, rfl⟩
  | false =>
    rw [readinessTrace_of_failure env w _ _ hbs]
    exact ⟨rfl, rfl, rfl, rfl, rfl, rfl⟩

/-- Shared witness fixture: the bot-authored base PR found by the title
search. -/
def basePRW : PRItem := ⟨7, "pkg: 1.0.0 -> 1.0.5", "urlB"⟩

/-- Shared witness fixture: a world in which the transplant path is taken. -/
def worldTransplant : World :=
  ⟨false, "1.1.0", "cl", ⟨0, []⟩, ⟨1, [basePRW]⟩, fun _ => fullPRW, "1.0.5", "tmpl", fullPRW,
   true, "log"⟩

theorem C1_transplant_path_witness : transplantSpec envW worldTransplant basePRW :=
  C1_transplant_path envW worldTransplant basePRW rfl (by decide) rfl (by decide)

/-- What the fresh path guarantees: the run completes having performed no
proposal update and exactly one proposal creation — base the target branch,
head `"{bot}:{package}-{newVersion}"`, the standard title, body built from the
synthesized summary and the default template, `maintainer_can_modify` and
`draft` both true — after exactly one push, of the fresh branch
`"{package}-{newVersion}"`. -/
def freshSpec (env : Env) (w : World) : Prop :=
  (main env w).outcome = Outcome.completed ∧
  (main env w).trace.filter isPrUpdate = [] ∧
  (main env w).trace.filter isPrCreate =
    [Action.prCreate (BOT_USER ++ ":" ++ env.package ++ "-" ++ w.newVersion) TARGET_BRANCH
      (env.package ++ ": " ++ env.preVersion ++ " -> " ++ w.newVersion)
      (make_body (prBodyText env.package env.preVersion w.newVersion w.changelog env.workflowUrl)
        w.prTemplate)
      true true] ∧
  (main env w).trace.filter isGitPush =
    [Action.git ["push", "--set-upstream", "fork", env.package ++ "-" ++ w.newVersion]]

/-- C4: when no bot-authored open proposal with the searched title prefix
exists, the run pushes the branch `"{package}-{newVersion}"` to the bot's fork
and creates exactly one new proposal, with base the target branch, head
`"{bot}:{package}-{newVersion}"`, title
`"{package}: {previousVersion} -> {newVersion}"`, body the synthesized summary
followed by the default template block, and draft set. -/
theorem C4_fresh_path (env : Env) (w : World)
    (hd : w.diffIndexClean = false)
    (hu : semver_is_upgrade env.preVersion w.newVersion = some true)
    (h0 : w.existingPRs.totalCount = 0)
    (hfind : findBasePR env w = none) :
    freshSpec env w := by
  have hm : main env w =
      ⟨freshTrace env w ++ readinessTrace env w w.createdPR.number w.createdPR.nodeId,
       Outcome.completed⟩ := by
    rw [main_of_dirty env w hd, afterDiffGate_of_upgrade env w hu,
      afterUpgradeGate_of_no_dup env w h0, reconcile_of_no_base env w hfind]
  rw [freshSpec, hm]
  cases hbs : w.buildSucceeded with
  | true =>
    rw [readinessTrace_of_success env w _ _ hbs]
    exact ⟨rfl, rfl, rfl, rfl⟩
  | false =>
    rw [readinessTrace_of_failure env w _ _ hbs]
    exact ⟨rfl, rfl, rfl, rfl⟩

/-- Shared witness fixture: a world in which the fresh path is taken and the
build succeeds. -/
def worldFresh : World :=
  ⟨false, "1.1.0", "cl", ⟨0, []⟩, ⟨0, []⟩, fun _ => fullPRW, "1.0.5", "tmpl", fullPRW,
   true, "log"⟩

theorem C4_fresh_path_witness : freshSpec envW worldFresh :=
  C4_fresh_path envW worldFresh rfl (by decide) rfl rfl

/-! ## Claims C5 and C6: the Readiness Gate -/

/-- What the Readiness Gate guarantees on success: exactly one comment, whose
body is the success report — shown to contain the full build log verbatim
between fixed text under the details disclosure — exactly one
ready-for-review mutation, and (per the spec-modelled service semantics
`draftAfter`) the draft flag ends false whether the proposal was still a draft
or already ready, the transition being an idempotent no-op in the latter
case. -/
def successReadinessSpec (env : Env) (w : World) : Prop :=
  ∃ num nid,
    (main env w).trace.filter isCreateComment =
      [Action.createComment num (successCommentBody env.package w.buildLog)] ∧
    (main env w).trace.filter isMarkReady = [Action.markReady nid] ∧
    successCommentBody env.package w.buildLog =
      ("nix-build was successful! Marking this PR as ready for review.\n\n<details>\n<summary>Complete build log</summary>\n\n```\n> nix-build -A " ++
          env.package ++ "\n") ++
        w.buildLog ++ "\n```\n</details>\n" ∧
    draftAfter true (main env w).trace = false ∧
    draftAfter false (main env w).trace = false

/-- C5: on a successful build outcome the run posts exactly one comment
containing the full build log verbatim under a details disclosure and
transitions the proposal out of draft; the transition is modelled as
idempotent, so performing it on an already-ready proposal is a no-op. -/
theorem C5_readiness_success (env : Env) (w : World)
    (hd : w.diffIndexClean = false)
    (hu : semver_is_upgrade env.preVersion w.newVersion = some true)
    (h0 : w.existingPRs.totalCount = 0)
    (hbs : w.buildSucceeded = true) :
    successReadinessSpec env w := by
  rw [successReadinessSpec]
  have hg : afterDiffGate env w = reconcileAndReadiness env w := by
    rw [afterDiffGate_of_upgrade env w hu, afterUpgradeGate_of_no_dup env w h0]
  cases hfind : findBasePR env w with
  | some basePR =>
    have hm : main env w =
        ⟨transplantTrace env w basePR ++
           readinessTrace env w (w.getPR basePR.number).number (w.getPR basePR.number).nodeId,
         Outcome.completed⟩ := by
      rw [main_of_dirty env w hd, hg, reconcile_of_base env w basePR hfind]
    rw [hm, readinessTrace_of_success env w _ _ hbs]
    exact ⟨(w.getPR basePR.number).number, (w.getPR basePR.number).nodeId,
      rfl, rfl, rfl, rfl, rfl⟩
  | none =>
    have hm : main env w =
        ⟨freshTrace env w ++ readinessTrace env w w.createdPR.number w.createdPR.nodeId,
         Outcome.completed⟩ := by
      rw [main_of_dirty env w hd, hg, reconcile_of_no_base env w hfind]
    rw [hm, readinessTrace_of_success env w _ _ hbs]
    exact ⟨w.createdPR.number, w.createdPR.nodeId, rfl, rfl, rfl, rfl, rfl⟩

theorem C5_readiness_success_witness : successReadinessSpec envW worldFresh :=
  C5_readiness_success envW worldFresh rfl (by decide) rfl rfl

/-- What the Readiness Gate guarantees on failure: exactly one comment, whose
body is the failure report — shown to contain, between fixed text, the
abbreviated excerpt (the join of exactly the last 15 log lines) and the full
log — no ready-for-review mutation, and the draft flag left unchanged from
any initial state. -/
def failureReadinessSpec (env : Env) (w : World) : Prop :=
  ∃ num,
    (main env w).trace.filter isCreateComment =
      [Action.createComment num (failureCommentBody env.package w.buildLog)] ∧
    (main env w).trace.filter isMarkReady = [] ∧
    failureCommentBody env.package w.buildLog =
      "nix-build failed. Leaving this PR as a draft for now. Push commits to this branch and mark as \"ready for review\" once the build issues have been resolved.\n\nAbbreviated log:\n```\n> nix-build -A " ++
        env.package ++ "\n...\n" ++
        pyJoinLastLines 15 w.buildLog ++
        "\n```\n\n<details>\n<summary>Complete build log</summary>\n\n```\n> nix-build -A " ++
        env.package ++ "\n" ++ w.buildLog ++ "\n```\n</details>\n" ∧
    pyJoinLastLines 15 w.buildLog =
      String.intercalate "\n"
        ((pySplitlines w.buildLog).drop ((pySplitlines w.buildLog).length - 15)) ∧
    ((pySplitlines w.buildLog).drop ((pySplitlines w.buildLog).length - 15)).length = 15 ∧
    (∀ d, draftAfter d (main env w).trace = d)

/-- C6: on a failed build outcome whose log has more than 15 lines, the run
posts exactly one comment whose abbreviated section is exactly the last 15
lines of the log, with the full log also included under a details disclosure,
and performs no readiness-state mutation, leaving the draft flag unchanged. -/
theorem C6_readiness_failure (env : Env) (w : World)
    (hd : w.diffIndexClean = false)
    (hu : semver_is_upgrade env.preVersion w.newVersion = some true)
    (h0 : w.existingPRs.totalCount = 0)
    (hbs : w.buildSucceeded = false)
    (hlen : 15 < (pySplitlines w.buildLog).length) :
    failureReadinessSpec env w := by
  rw [failureReadinessSpec]
  have hdrop : ((pySplitlines w.buildLog).drop ((pySplitlines w.buildLog).length - 15)).length = 15 := by
    rw [List.length_drop]
    omega
  have hg : afterDiffGate env w = reconcileAndReadiness env w := by
    rw [afterDiffGate_of_upgrade env w hu, afterUpgradeGate_of_no_dup env w h0]
  cases hfind : findBasePR env w with
  | some basePR =>
    have hm : main env w =
        ⟨transplantTrace env w basePR ++
           readinessTrace env w (w.getPR basePR.number).number (w.getPR basePR.number).nodeId,
         Outcome.completed⟩ := by
      rw [main_of_dirty env w hd, hg, reconcile_of_base env w basePR hfind]
    rw [hm, readinessTrace_of_failure env w _ _ hbs]
    exact ⟨(w.getPR basePR.number).number, rfl, rfl, rfl, rfl, hdrop, fun d => rfl⟩
  | none =>
    have hm : main env w =
        ⟨freshTrace env w ++ readinessTrace env w w.createdPR.number w.createdPR.nodeId,
         Outcome.completed⟩ := by
      rw [main_of_dirty env w hd, hg, reconcile_of_no_base env w hfind]
    rw [hm, readinessTrace_of_failure env w _ _ hbs]
    exact ⟨w.createdPR.number, rfl, rfl, rfl, rfl, hdrop, fun d => rfl⟩

/-- Shared witness fixture: a world in which the fresh path is taken and the
build fails with a 16-line log. -/
def worldFail : World :=
  ⟨false, "1.1.0", "cl", ⟨0, []⟩, ⟨0, []⟩, fun _ => fullPRW, "1.0.5", "tmpl", fullPRW,
   false, "l1\nl2\nl3\nl4\nl5\nl6\nl7\nl8\nl9\nl10\nl11\nl12\nl13\nl14\nl15\nl16"⟩

theorem C6_readiness_failure_witness : failureReadinessSpec envW worldFail :=
  C6_readiness_failure envW worldFail rfl (by decide) rfl rfl (by decide)

/-! ## Claims C2 and C3: the template block

The central fact is `extract_template_make_body`: whatever `make_body`
produces, splitting at the first marker occurrence recovers the (stripped)
template with its canonical blank-line separator, provided the free-text part
does not itself contain the marker. -/

theorem splitFirst_cons (sep : List Char) (c : Char) (cs : List Char) :
    splitFirst sep (c :: cs) =
      if listStartsWith sep (c :: cs) then some ([], (c :: cs).drop sep.length)
      else
        match splitFirst sep cs with
        | some (p, q) => some (c :: p, q)
        | none => none := by
  rw [splitFirst.eq_def]

theorem listStartsWith_iff (p s : List Char) :
    listStartsWith p s = true ↔ ∃ t, s = p ++ t := by
  induction p generalizing s with
  | nil => simp [listStartsWith]
  | cons a ps ih =>
    cases s with
    | nil => simp [listStartsWith]
    | cons c cs =>
      simp only [listStartsWith, Bool.and_eq_true, beq_iff_eq, ih, List.cons_append,
        List.cons.injEq]
      constructor
      · rintro ⟨rfl, t, rfl⟩
        exact ⟨t, rfl, rfl⟩
      · rintro ⟨t, rfl, rfl⟩
        exact ⟨rfl, t, rfl⟩

/-- `sep` occurs as a contiguous sub-list of `l`. -/
def occursIn (sep l : List Char) : Prop := ∃ u v, l = u ++ (sep ++ v)

theorem splitFirst_ne_none_of_occursIn (sep l : List Char) (hne : sep ≠ [])
    (h : occursIn sep l) : splitFirst sep l ≠ none := by
  obtain ⟨u, v, rfl⟩ := h
  induction u with
  | nil =>
    obtain ⟨s0, ss, rfl⟩ : ∃ s0 ss, sep = s0 :: ss := by
      cases sep with
      | nil => exact absurd rfl hne
      | cons s0 ss => exact ⟨s0, ss, rfl⟩
    rw [List.nil_append, List.cons_append, splitFirst_cons]
    rw [if_pos ((listStartsWith_iff _ _).mpr ⟨v, by simp⟩)]
    simp
  | cons c u' ih =>
    rw [List.cons_append, splitFirst_cons]
    by_cases hsw : listStartsWith sep (c :: (u' ++ (sep ++ v))) = true
    · rw [if_pos hsw]; simp
    · rw [if_neg hsw]
      cases hs : splitFirst sep (u' ++ (sep ++ v)) with
      | none => exact absurd hs ih
      | some p => cases p; simp

theorem not_occursIn_of_containsMarker_eq_false (s : String)
    (h : containsMarker s = false) : ¬ occursIn TEMPLATE_MARKER.data s.data := by
  intro hocc
  have hne : TEMPLATE_MARKER.data ≠ [] := by decide
  have := splitFirst_ne_none_of_occursIn TEMPLATE_MARKER.data s.data hne hocc
  rw [containsMarker] at h
  cases hs : splitFirst TEMPLATE_MARKER.data s.data with
  | none => exact this hs
  | some p => rw [hs] at h; simp at h

theorem listStartsWith_newline_eq_false (sep : List Char) (hne : sep ≠ [])
    (hnl : '\n' ∉ sep) (xs : List Char) : listStartsWith sep ('\n' :: xs) = false := by
  cases sep with
  | nil => exact absurd rfl hne
  | cons s0 ss =>
    rw [listStartsWith]
    have : s0 ≠ '\n' := fun h => hnl (h ▸ List.mem_cons_self s0 ss)
    simp [this]

theorem splitFirst_newline_head (sep : List Char) (hne : sep ≠ []) (hnl : '\n' ∉ sep)
    (xs : List Char) :
    splitFirst sep ('\n' :: xs) = (splitFirst sep xs).map fun p => ('\n' :: p.1, p.2) := by
  rw [splitFirst_cons, if_neg (by rw [listStartsWith_newline_eq_false sep hne hnl xs]; simp)]
  cases splitFirst sep xs with
  | none => rfl
  | some p => cases p; rfl

theorem splitFirst_self_append (sep R : List Char) (hne : sep ≠ []) :
    splitFirst sep (sep ++ R) = some ([], R) := by
  obtain ⟨s0, ss, rfl⟩ : ∃ s0 ss, sep = s0 :: ss := by
    cases sep with
    | nil => exact absurd rfl hne
    | cons s0 ss => exact ⟨s0, ss, rfl⟩
  rw [List.cons_append, splitFirst_cons]
  rw [if_pos ((listStartsWith_iff _ _).mpr ⟨R, by simp⟩)]
  rw [← List.cons_append, List.drop_left]

/-- If some suffix-extension `L ++ X` of `L` starts with `sep`, then either
`sep` occurs inside `L` with remainder, or `sep` runs past `L` and contains
the first character of `X`. -/
theorem sep_cases_of_startsWith (sep L : List Char) (c : Char) (X : List Char)
    (h : listStartsWith sep (L ++ c :: X) = true) :
    (∃ v, L = sep ++ v) ∨ (L.length < sep.length ∧ c ∈ sep) := by
  obtain ⟨t, ht⟩ := (listStartsWith_iff _ _).mp h
  by_cases hlen : sep.length ≤ L.length
  · left
    have htake : sep = L.take sep.length := by
      calc sep = (sep ++ t).take sep.length := (List.take_left sep t).symm
        _ = (L ++ c :: X).take sep.length := by rw [← ht]
        _ = L.take sep.length := List.take_append_of_le_length hlen
    refine ⟨L.drop sep.length, ?_⟩
    conv_lhs => rw [← List.take_append_drop sep.length L]
    rw [← htake]
  · right
    push_neg at hlen
    refine ⟨hlen, ?_⟩
    have htk : sep.take (L.length + 1) = L ++ [c] := by
      have h1 : (L ++ c :: X).take (L.length + 1) = L ++ [c] := by
        rw [List.take_append_eq_append_take,
          List.take_of_length_le (by omega : L.length ≤ L.length + 1)]
        have h12 : L.length + 1 - L.length = 1 := by omega
        rw [h12]
        simp
      have h2 : (sep ++ t).take (L.length + 1) = sep.take (L.length + 1) :=
        List.take_append_of_le_length (by omega)
      rw [← h2, ← ht, h1]
    have hmem : c ∈ sep.take (L.length + 1) := by
      rw [htk]
      simp
    exact List.take_subset _ _ hmem

theorem splitFirst_append_of_not_occursIn (sep A R : List Char) (_hne : sep ≠ [])
    (hnl : '\n' ∉ sep) (hA : ¬ occursIn sep A) :
    splitFirst sep (A ++ '\n' :: R) =
      (splitFirst sep ('\n' :: R)).map fun p => (A ++ p.1, p.2) := by
  induction A with
  | nil =>
    cases h : splitFirst sep ('\n' :: R) with
    | none => simp [h]
    | some p => cases p; simp [h]
  | cons c A' ih =>
    have hA' : ¬ occursIn sep A' := by
      intro ⟨u, v, huv⟩
      exact hA ⟨c :: u, v, by rw [huv]; rfl⟩
    have hsw : listStartsWith sep ((c :: A') ++ '\n' :: R) = false := by
      cases hb : listStartsWith sep ((c :: A') ++ '\n' :: R) with
      | false => rfl
      | true =>
        exfalso
        rcases sep_cases_of_startsWith sep (c :: A') '\n' R hb with ⟨v, hv⟩ | ⟨_, hmem⟩
        · exact hA ⟨[], v, by rw [List.nil_append, hv]⟩
        · exact hnl hmem
    rw [List.cons_append, splitFirst_cons, if_neg (by rw [← List.cons_append, hsw]; simp),
      ih hA']
    cases splitFirst sep ('\n' :: R) with
    | none => rfl
    | some p => cases p; rfl

theorem dropWhile_decomp (p : Char → Bool) (l : List Char) :
    ∃ s, l = s ++ l.dropWhile p := by
  obtain ⟨s, hs⟩ := List.dropWhile_suffix (l := l) p
  exact ⟨s, hs.symm⟩

theorem rstripCL_decomp (l : List Char) : ∃ t, l = rstripCL l ++ t := by
  refine ⟨(l.reverse.takeWhile isPySpace).reverse, ?_⟩
  rw [rstripCL]
  conv_lhs =>
    rw [← List.reverse_reverse l,
      ← List.takeWhile_append_dropWhile (p := isPySpace) (l := l.reverse)]
  rw [List.reverse_append]

theorem stripCL_decomp (l : List Char) : ∃ s t, l = s ++ (stripCL l ++ t) := by
  obtain ⟨s, hs⟩ := dropWhile_decomp isPySpace l
  obtain ⟨t, ht⟩ := rstripCL_decomp (l.dropWhile isPySpace)
  exact ⟨s, t, by rw [stripCL, ← ht, ← hs]⟩

theorem not_occursIn_stripCL (sep l : List Char) (h : ¬ occursIn sep l) :
    ¬ occursIn sep (stripCL l) := by
  intro ⟨u, v, huv⟩
  obtain ⟨s, t, hst⟩ := stripCL_decomp l
  exact h ⟨s ++ u, v ++ t, by rw [hst, huv]; simp⟩

theorem make_body_data (X T : String) :
    (make_body X T).data =
      stripCL X.data ++
        ('\n' :: '\n' :: (TEMPLATE_MARKER.data ++ '\n' :: '\n' :: stripCL T.data)) := by
  rw [make_body]
  rw [String.data_append, String.data_append, String.data_append, String.data_append]
  rw [pyStrip, pyStrip]
  simp

/-- Splitting the output of `make_body X T` at the first marker: provided `X`
does not contain the marker, the extracted part is exactly the canonical
blank-line separator followed by the stripped template, regardless of `T`'s
content. -/
theorem extract_template_make_body (X T : String) (hX : containsMarker X = false) :
    extract_template (make_body X T) = some ("\n\n" ++ pyStrip T) := by
  have hne : TEMPLATE_MARKER.data ≠ [] := by decide
  have hnl : '\n' ∉ TEMPLATE_MARKER.data := by decide
  have hX' : ¬ occursIn TEMPLATE_MARKER.data (stripCL X.data) :=
    not_occursIn_stripCL _ _ (not_occursIn_of_containsMarker_eq_false X hX)
  rw [extract_template, make_body_data]
  rw [splitFirst_append_of_not_occursIn _ _ _ hne hnl hX']
  rw [splitFirst_newline_head _ hne hnl, splitFirst_newline_head _ hne hnl]
  rw [splitFirst_self_append _ _ hne]
  show some (String.mk ('\n' :: '\n' :: stripCL T.data)) = some ("\n\n" ++ pyStrip T)
  have : ("\n\n" ++ pyStrip T).data = '\n' :: '\n' :: stripCL T.data := by
    rw [String.data_append, pyStrip]
    rfl
  rw [← this]

theorem dropWhile_idem (p : Char → Bool) (l : List Char) :
    (l.dropWhile p).dropWhile p = l.dropWhile p := by
  induction l with
  | nil => rfl
  | cons c cs ih =>
    by_cases h : p c = true
    · rw [List.dropWhile_cons, if_pos h, ih]
    · rw [List.dropWhile_cons, if_neg h, List.dropWhile_cons, if_neg h]

theorem rstripCL_idem (l : List Char) : rstripCL (rstripCL l) = rstripCL l := by
  rw [rstripCL, rstripCL, List.reverse_reverse, dropWhile_idem]

theorem dropWhile_rstripCL (l : List Char) (h : l.dropWhile isPySpace = l) :
    (rstripCL l).dropWhile isPySpace = rstripCL l := by
  cases hr : rstripCL l with
  | nil => rfl
  | cons c w =>
    obtain ⟨t, ht⟩ := rstripCL_decomp l
    rw [hr] at ht
    have hc : isPySpace c = false := by
      cases hp : isPySpace c with
      | false => rfl
      | true =>
        exfalso
        have : l.dropWhile isPySpace = (w ++ t).dropWhile isPySpace := by
          rw [ht, List.cons_append, List.dropWhile_cons, if_pos hp]
        have hlen : l.length ≤ (w ++ t).length := by
          rw [h] at this
          rw [this]
          exact (List.dropWhile_sublist (p := isPySpace) (l := w ++ t)).length_le
        rw [ht] at hlen
        simp at hlen
    rw [List.dropWhile_cons, if_neg (by rw [hc]; simp)]

theorem stripCL_double_newline (l : List Char) :
    stripCL ('\n' :: '\n' :: stripCL l) = stripCL l := by
  have hnl : isPySpace '\n' = true := by decide
  rw [stripCL, List.dropWhile_cons, if_pos hnl, List.dropWhile_cons, if_pos hnl]
  rw [stripCL, dropWhile_rstripCL _ (dropWhile_idem _ _), rstripCL_idem]

theorem pyStrip_newline_pyStrip (s : String) : pyStrip ("\n\n" ++ pyStrip s) = pyStrip s := by
  rw [pyStrip, pyStrip, String.data_append]
  show String.mk (stripCL ('\n' :: '\n' :: stripCL s.data)) = _
  rw [stripCL_double_newline]

/-- C3 (amended): the claimed round-trip fails for prefixes that contain the
marker, and the extracted block is only preserved as template text, i.e. up to
`str.strip` (the extracted part carries a canonical leading blank line and
loses any other edge whitespace).  Under the amendment — the prefix `X` does
not contain the marker, and template text is compared after stripping — the
round-trip holds for every body containing the marker. -/
theorem C3_template_roundtrip (S X t : String) (h : extract_template S = some t)
    (hX : containsMarker X = false) :
    (extract_template (make_body X t)).map pyStrip = (extract_template S).map pyStrip := by
  rw [h, extract_template_make_body X t hX]
  show some (pyStrip ("\n\n" ++ pyStrip t)) = some (pyStrip t)
  rw [pyStrip_newline_pyStrip]

theorem C3_template_roundtrip_witness :
    (extract_template (make_body "xx" "T")).map pyStrip =
      (extract_template (TEMPLATE_MARKER ++ "T")).map pyStrip :=
  C3_template_roundtrip (TEMPLATE_MARKER ++ "T") "xx" "T" (by decide) (by decide)

/-- C3 counterexample: with `S = X = TEMPLATE_MARKER` (so `extract_template S`
is the empty template), the round-tripped body contains a second marker coming
from `X`, and extraction returns a block containing the marker itself rather
than the original empty template — even compared as stripped template text. -/
theorem C3_template_roundtrip_counterexample :
    ¬ (∀ (S X t : String), extract_template S = some t →
        (extract_template (make_body X t)).map pyStrip = (extract_template S).map pyStrip) := by
  intro h
  have := h TEMPLATE_MARKER TEMPLATE_MARKER "" (by decide)
  exact absurd this (by decide)

/-- C2 (amended): on the transplant path's body rewrite, when the current body
contains the marker and the text after it is non-empty, that text is carried
forward — as template text, re-inserted stripped after the canonical blank
line — and the result does not depend on the default template.  (When the
marker is absent, or the text after it is empty — the Python `or` treats the
empty extracted block as falsy — the default template is used instead.) -/
theorem C2_template_preservation (s cur d t : String)
    (hcur : extract_template cur = some t) (ht : t ≠ "") (hs : containsMarker s = false) :
    (∀ d' : String, rewrittenBody s cur d' = rewrittenBody s cur d) ∧
    extract_template (rewrittenBody s cur d) = some ("\n\n" ++ pyStrip t) := by
  have hor : ∀ d' : String, pyOrStr (extract_template cur) d' = t := by
    intro d'
    rw [hcur, pyOrStr]
    simp [ht]
  constructor
  · intro d'
    rw [rewrittenBody, rewrittenBody, hor d', hor d]
  · rw [rewrittenBody, hor d]
    exact extract_template_make_body s t hs

/-- Shared witness fixture: a proposal body holding a human-edited template
block. -/
def curBodyW : String := "x\n\n" ++ TEMPLATE_MARKER ++ "\nblock"

theorem C2_template_preservation_witness :
    (∀ d' : String, rewrittenBody "sum" curBodyW d' = rewrittenBody "sum" curBodyW "D") ∧
    extract_template (rewrittenBody "sum" curBodyW "D") = some ("\n\n" ++ pyStrip "\nblock") :=
  C2_template_preservation "sum" curBodyW "D" "\nblock" (by decide) (by decide) (by decide)

/-- C2 counterexample: a body consisting of exactly the marker contains the
marker, yet its (empty) block is replaced by the default template — the
rewritten body depends on the default template even though the marker is
present, because Python's `or` treats the empty extracted block as falsy. -/
theorem C2_template_preservation_counterexample :
    ¬ (∀ (s cur d1 d2 : String), (extract_template cur).isSome = true →
        rewrittenBody s cur d1 = rewrittenBody s cur d2) := by
  intro h
  have := h "x" TEMPLATE_MARKER "a" "b" (by decide)
  exact absurd this (by decide)

/-! ## Claim C7: the Version Gate

The library's comparison loop is proved to compute exactly the strict
semantic-version order `SemVer.ltB`, by a trichotomy lemma at each layer. -/

theorem pyCmp_neg (a b : Nat) : pyCmp a b = -1 ↔ a < b := by
  unfold pyCmp
  split_ifs with h1 h2 <;> constructor <;> intro h <;>
    first | assumption | omega | simp_all

theorem pyCmp_zero (a b : Nat) : pyCmp a b = 0 ↔ a = b := by
  unfold pyCmp
  split_ifs with h1 h2 <;> constructor <;> intro h <;>
    first | assumption | omega | simp_all

theorem pyCmp_pos (a b : Nat) : pyCmp a b = 1 ↔ b < a := by
  unfold pyCmp
  split_ifs with h1 h2 <;> constructor <;> intro h <;>
    first | assumption | omega | simp_all

theorem cmpChars_tri : ∀ s t : List Char,
    (cmpChars s t = -1 ↔ lexLtChars s t = true) ∧
    (cmpChars s t = 0 ↔ s = t) ∧
    (cmpChars s t = 1 ↔ lexLtChars t s = true)
  | [], [] => by simp [cmpChars, lexLtChars]
  | [], _ :: _ => by simp [cmpChars, lexLtChars]
  | _ :: _, [] => by simp [cmpChars, lexLtChars]
  | c :: cs, d :: ds => by
    have ih := cmpChars_tri cs ds
    rcases lt_trichotomy c d with h | h | h
    · have h1 : ¬ d < c := lt_asymm h
      refine ⟨?_, ?_, ?_⟩
      · simp [cmpChars, lexLtChars, h]
      · simp [cmpChars, lexLtChars, h, ne_of_lt h]
      · simp [cmpChars, lexLtChars, h, h1, Ne.symm (ne_of_lt h)]
    · subst h
      have h0 : ¬ c < c := lt_irrefl c
      refine ⟨?_, ?_, ?_⟩
      · simp [cmpChars, lexLtChars, h0, ih.1]
      · simp [cmpChars, lexLtChars, h0, ih.2.1]
      · simp [cmpChars, lexLtChars, h0, ih.2.2]
    · have h1 : ¬ c < d := lt_asymm h
      refine ⟨?_, ?_, ?_⟩
      · simp [cmpChars, lexLtChars, h, h1, Ne.symm (ne_of_lt h)]
      · simp [cmpChars, lexLtChars, h1, h, Ne.symm (ne_of_lt h)]
      · simp [cmpChars, lexLtChars, h, h1]

theorem cmpIdent_tri (a b : Ident) :
    (cmpIdent a b = -1 ↔ Ident.ltB a b = true) ∧
    (cmpIdent a b = 0 ↔ a = b) ∧
    (cmpIdent a b = 1 ↔ Ident.ltB b a = true) := by
  cases a with
  | num m =>
    cases b with
    | num n => simp [cmpIdent, Ident.ltB, pyCmp_neg, pyCmp_zero, pyCmp_pos]
    | alphanum t => simp [cmpIdent, Ident.ltB]
  | alphanum s =>
    cases b with
    | num n => simp [cmpIdent, Ident.ltB]
    | alphanum t =>
      have h := cmpChars_tri s t
      simp [cmpIdent, Ident.ltB, h.1, h.2.1, h.2.2]

theorem pyCmp_cases (a b : Nat) : pyCmp a b = -1 ∨ pyCmp a b = 0 ∨ pyCmp a b = 1 := by
  unfold pyCmp
  split_ifs <;> simp

theorem cmpChars_cases : ∀ s t : List Char,
    cmpChars s t = -1 ∨ cmpChars s t = 0 ∨ cmpChars s t = 1
  | [], [] => by simp [cmpChars]
  | [], _ :: _ => by simp [cmpChars]
  | _ :: _, [] => by simp [cmpChars]
  | c :: cs, d :: ds => by
    have ih := cmpChars_cases cs ds
    by_cases h1 : c < d
    · simp [cmpChars, h1]
    · by_cases h2 : d < c
      · simp [cmpChars, h1, h2]
      · simpa [cmpChars, h1, h2] using ih

theorem cmpIdent_cases (a b : Ident) :
    cmpIdent a b = -1 ∨ cmpIdent a b = 0 ∨ cmpIdent a b = 1 := by
  cases a with
  | num m =>
    cases b with
    | num n => simpa [cmpIdent] using pyCmp_cases m n
    | alphanum t => simp [cmpIdent]
  | alphanum s =>
    cases b with
    | num n => simp [cmpIdent]
    | alphanum t => simpa [cmpIdent] using cmpChars_cases s t

theorem natCmp_tri : ∀ a b : List Ident,
    (natCmp a b = -1 ↔ preListLt a b = true) ∧
    (natCmp a b = 0 ↔ a = b) ∧
    (natCmp a b = 1 ↔ preListLt b a = true)
  | [], [] => by simp [natCmp, preListLt, pyCmp]
  | [], _ :: _ => by simp [natCmp, preListLt, pyCmp]
  | _ :: _, [] => by simp [natCmp, preListLt, pyCmp]
  | x :: xs, y :: ys => by
    have ih := natCmp_tri xs ys
    have hc := cmpIdent_tri x y
    by_cases h0 : cmpIdent x y = 0
    · have hxy : x = y := hc.2.1.mp h0
      subst hxy
      have hirr : Ident.ltB x x = false := by
        cases hb : Ident.ltB x x with
        | false => rfl
        | true => rw [hc.1.mpr hb] at h0; exact absurd h0 (by decide)
      rw [natCmp, if_pos h0]
      refine ⟨?_, ?_, ?_⟩
      · simp [preListLt, hirr, ih.1]
      · simp [ih.2.1]
      · simp [preListLt, hirr, ih.2.2]
    · rw [natCmp, if_neg h0]
      rcases cmpIdent_cases x y with h | h | h
      · have hlt : Ident.ltB x y = true := hc.1.mp h
        have hne : x ≠ y := fun he => h0 (hc.2.1.mpr he)
        have hgt : Ident.ltB y x = false := by
          cases hb : Ident.ltB y x with
          | false => rfl
          | true => rw [hc.2.2.mpr hb] at h; exact absurd h (by decide)
        rw [h]
        refine ⟨?_, ?_, ?_⟩
        · simp [preListLt, hlt]
        · simp [hne]
        · simp [preListLt, hgt, Ne.symm hne]
      · exact absurd h h0
      · have hlt : Ident.ltB y x = true := hc.2.2.mp h
        have hne : x ≠ y := fun he => h0 (hc.2.1.mpr he)
        have hf : Ident.ltB x y = false := by
          cases hb : Ident.ltB x y with
          | false => rfl
          | true => rw [hc.1.mpr hb] at h; exact absurd h (by decide)
        rw [h]
        refine ⟨?_, ?_, ?_⟩
        · simp [preListLt, hf, hne]
        · simp [hne]
        · simp [preListLt, hlt]

theorem preCmp_tri (p q : List Ident) :
    (preCmp p q = -1 ↔ prePartLt p q = true) ∧
    (preCmp p q = 0 ↔ p = q) ∧
    (preCmp p q = 1 ↔ prePartLt q p = true) := by
  cases p with
  | nil =>
    cases q with
    | nil => simp [preCmp, prePartLt]
    | cons y ys => simp [preCmp, prePartLt]
  | cons x xs =>
    cases q with
    | nil => simp [preCmp, prePartLt]
    | cons y ys =>
      have h := natCmp_tri (x :: xs) (y :: ys)
      simp only [preCmp, prePartLt, List.isEmpty_cons, Bool.not_false, Bool.true_and,
        Bool.false_or]
      exact ⟨h.1, h.2.1, h.2.2⟩

theorem compare_tri (x y : SemVer) :
    (SemVer.compare x y = -1 ↔ SemVer.ltB x y = true) ∧
    (SemVer.compare x y = 0 ↔ x = y) ∧
    (SemVer.compare x y = 1 ↔ SemVer.ltB y x = true) := by
  obtain ⟨ma, mia, pa, ra⟩ := x
  obtain ⟨mb, mib, pb, rb⟩ := y
  simp only [SemVer.compare, SemVer.ltB, SemVer.mk.injEq]
  rcases Nat.lt_trichotomy ma mb with h | h | h
  · rw [if_pos (by rw [(pyCmp_neg _ _).mpr h]; decide)]
    rw [(pyCmp_neg _ _).mpr h]
    refine ⟨?_, ?_, ?_⟩
    · simp [h]
    · simp [ne_of_lt h]
    · simp [Nat.lt_asymm h, Ne.symm (ne_of_lt h)]
  · subst h
    rw [if_neg (by rw [(pyCmp_zero _ _).mpr rfl]; decide)]
    rcases Nat.lt_trichotomy mia mib with h2 | h2 | h2
    · rw [if_pos (by rw [(pyCmp_neg _ _).mpr h2]; decide)]
      rw [(pyCmp_neg _ _).mpr h2]
      refine ⟨?_, ?_, ?_⟩
      · simp [h2]
      · simp [ne_of_lt h2]
      · simp [Nat.lt_asymm h2, Ne.symm (ne_of_lt h2)]
    · subst h2
      rw [if_neg (by rw [(pyCmp_zero _ _).mpr rfl]; decide)]
      rcases Nat.lt_trichotomy pa pb with h3 | h3 | h3
      · rw [if_pos (by rw [(pyCmp_neg _ _).mpr h3]; decide)]
        rw [(pyCmp_neg _ _).mpr h3]
        refine ⟨?_, ?_, ?_⟩
        · simp [h3]
        · simp [ne_of_lt h3]
        · simp [Nat.lt_asymm h3, Ne.symm (ne_of_lt h3)]
      · subst h3
        rw [if_neg (by rw [(pyCmp_zero _ _).mpr rfl]; decide)]
        have hp := preCmp_tri ra rb
        refine ⟨?_, ?_, ?_⟩
        · simp [hp.1]
        · simp [hp.2.1]
        · simp [hp.2.2]
      · rw [if_pos (by rw [(pyCmp_pos _ _).mpr h3]; decide)]
        rw [(pyCmp_pos _ _).mpr h3]
        refine ⟨?_, ?_, ?_⟩
        · simp [Nat.lt_asymm h3, Ne.symm (ne_of_lt h3)]
        · simp [Ne.symm (ne_of_lt h3)]
        · simp [h3]
    · rw [if_pos (by rw [(pyCmp_pos _ _).mpr h2]; decide)]
      rw [(pyCmp_pos _ _).mpr h2]
      refine ⟨?_, ?_, ?_⟩
      · simp [Nat.lt_asymm h2, Ne.symm (ne_of_lt h2)]
      · simp [Ne.symm (ne_of_lt h2)]
      · simp [h2]
  · rw [if_pos (by rw [(pyCmp_pos _ _).mpr h]; decide)]
    rw [(pyCmp_pos _ _).mpr h]
    refine ⟨?_, ?_, ?_⟩
    · simp [Nat.lt_asymm h, Ne.symm (ne_of_lt h)]
    · simp [Ne.symm (ne_of_lt h)]
    · simp [h]

/-- C7: for version strings accepted by the semver grammar, the Version Gate
proceeds iff the new version is strictly greater than the previous one under
the semantic-version order; equality and downgrades yield do-not-proceed, and
at the run level a non-upgrade produces only a diagnostic print with no
mutation while a malformed version string (either argument failing to parse)
is a fatal error — an uncaught exception with an empty trace — rather than a
recoverable do-not-proceed result. -/
theorem C7_version_gate :
    (∀ (a b : String) (va vb : SemVer), parseSemver a = some va → parseSemver b = some vb →
        (semver_is_upgrade a b = some true ↔ SemVer.Lt va vb)) ∧
    (∀ a b : String, parseSemver a = none ∨ parseSemver b = none →
        semver_is_upgrade a b = none) ∧
    (∀ (a : String) (va : SemVer), parseSemver a = some va →
        semver_is_upgrade a a = some false) ∧
    (∀ (a b : String) (va vb : SemVer), parseSemver a = some va → parseSemver b = some vb →
        SemVer.Lt vb va → semver_is_upgrade a b = some false) ∧
    (∀ (env : Env) (w : World), w.diffIndexClean = false →
        semver_is_upgrade env.preVersion w.newVersion = some false →
        main env w =
          ⟨[Action.printLine (w.newVersion ++ " does not appear to be an upgrade from " ++ env.preVersion)],
           Outcome.earlyNotUpgrade⟩) ∧
    (∀ (env : Env) (w : World), w.diffIndexClean = false →
        semver_is_upgrade env.preVersion w.newVersion = none →
        main env w = ⟨[], Outcome.fatalMalformedVersion⟩) := by
  refine ⟨?_, ?_, ?_, ?_, ?_, ?_⟩
  · intro a b va vb ha hb
    have h := (compare_tri vb va).2.2
    simp only [semver_is_upgrade, ha, hb, Option.some.injEq, beq_iff_eq, SemVer.Lt]
    exact h
  · intro a b hab
    rcases hab with ha | hb
    · cases hb2 : parseSemver b <;> simp [semver_is_upgrade, ha, hb2]
    · cases ha2 : parseSemver a <;> simp [semver_is_upgrade, hb, ha2]
  · intro a va ha
    simp only [semver_is_upgrade, ha]
    rw [(compare_tri va va).2.1.mpr rfl]
    rfl
  · intro a b va vb ha hb hlt
    simp only [semver_is_upgrade, ha, hb]
    rw [(compare_tri vb va).1.mpr hlt]
    rfl
  · intro env w hd hu
    rw [main_of_dirty env w hd, afterDiffGate_of_not_upgrade env w hu]
  · intro env w hd hu
    rw [main_of_dirty env w hd, afterDiffGate_of_malformed env w hu]

theorem C7_version_gate_witness :
    semver_is_upgrade "1.0.0" "1.1.0" = some true ∧
    semver_is_upgrade "1.1.0" "1.1.0" = some false ∧
    semver_is_upgrade "1.1.0" "1.0.2" = some false ∧
    semver_is_upgrade "1.0.0" "bogus" = none ∧
    main envW worldMalformed = ⟨[], Outcome.fatalMalformedVersion⟩ := by
  refine ⟨?_, ?_, ?_, ?_, ?_⟩
  · exact (C7_version_gate.1 "1.0.0" "1.1.0" ⟨1, 0, 0, []⟩ ⟨1, 1, 0, []⟩ (by decide)
      (by decide)).mpr (by unfold SemVer.Lt; decide)
  · exact C7_version_gate.2.2.1 "1.1.0" ⟨1, 1, 0, []⟩ (by decide)
  · exact C7_version_gate.2.2.2.1 "1.1.0" "1.0.2" ⟨1, 1, 0, []⟩ ⟨1, 0, 2, []⟩ (by decide)
      (by decide) (by unfold SemVer.Lt; decide)
  · exact C7_version_gate.2.1 "1.0.0" "bogus" (Or.inr (by decide))
  · exact C7_version_gate.2.2.2.2.2 envW worldMalformed rfl (by decide)

end CreatePR
